import Mathlib

/- Verification of the "To Do or Not To Do" task-prioritization app.

   This file gives a shallow embedding of the app's core logic and proves the
   specification's claims about it. The embedded code comes from:
   - `src/context/TasksContext.js` (the Task Store and Daily Selection Engine:
     `computeWeight`, `addTask`, `updateTask`, `removeTask`, `toggleCompleted`,
     `setTodaySelected`, `clearTodaySelections`, the load-from-storage weight
     recomputation, and `getEliminationCandidates`), and
   - `src/screens/AllTasksScreen.js` (`handleSave`, the UI-level name validation
     in front of `addTask`).

   Modelling conventions: JavaScript strings are `String`, numbers that the code
   uses as integers (weights, `Date.now()` timestamps) are `Nat`, the UUID
   generator and the clock are passed in as explicit arguments, and the React
   `setTasks(prev => ...)` updates become pure functions `List Task → List Task`.
   `Array.prototype.sort` with a total-preorder comparator is modelled by
   `List.mergeSort`, which is likewise a stable sort. `name.localeCompare` is
   modelled by codepoint-lexicographic `String` order, the baseline the spec
   allows. -/

namespace TodoApp

/-- A task record, with the fields created by `addTask` in TasksContext.js. -/
structure Task where
  id : String
  name : String
  type : String
  timing : String
  weight : Nat
  completed : Bool
  todaySelected : Bool
  createdAt : Nat
  updatedAt : Nat
deriving Repr, DecidableEq

/-- Model of JavaScript's `String.prototype.trim`: drop leading and trailing
whitespace. (Stated over the character list so that it evaluates by `decide`;
`Char.isWhitespace` stands in for the JS whitespace class.) -/
def jsTrim (s : String) : String :=
  String.mk (((s.toList.dropWhile Char.isWhitespace).reverse.dropWhile
    Char.isWhitespace).reverse)

/-- The `TYPE_WEIGHTS` object literal of TasksContext.js, as a key-value list. -/
def TYPE_WEIGHTS : List (String × Nat) := [("Want", 1), ("Need", 2), ("Both", 3)]

/-- The `TIMING_WEIGHTS` object literal of TasksContext.js. -/
def TIMING_WEIGHTS : List (String × Nat) := [("Today", 2), ("Later", 1)]

/-- `computeWeight` from TasksContext.js:
`(TYPE_WEIGHTS[task.type] || 1) * (TIMING_WEIGHTS[task.timing] || 1)`.
A missing key makes the object lookup yield `undefined`, so `|| 1` supplies the
default factor 1 (the stored weight values 1, 2, 3 are never falsy). -/
def computeWeight (t : Task) : Nat :=
  ((TYPE_WEIGHTS.lookup t.type).getD 1) * ((TIMING_WEIGHTS.lookup t.timing).getD 1)

/-- `addTask(name, type, timing)` from TasksContext.js. The JS builds the record
with a fresh uuid and `Date.now()` (here the explicit `newId` and `now`), trims
the name, assigns `newTask.weight = computeWeight(newTask)`, and prepends.
It performs no validation and returns nothing. The `weight := 0` below is the
placeholder for the field the JS object does not yet have before the
assignment overwrites it. -/
def addTask (newId : String) (now : Nat) (name ty timing : String)
    (tasks : List Task) : List Task :=
  let newTask : Task :=
    { id := newId, name := jsTrim name, type := ty, timing := timing,
      weight := 0, completed := false, todaySelected := false,
      createdAt := now, updatedAt := now }
  { newTask with weight := computeWeight newTask } :: tasks

/-- The partial-update map passed to `updateTask`: a JS object spread
`{...t, ...updates}` overrides exactly the keys present in `updates`. Callers
in this app pass subsets of the fields below; `updatedAt` is overwritten by
`updateTask` itself right after the spread, so it is not modelled here. -/
structure TaskUpdates where
  name : Option String := none
  type : Option String := none
  timing : Option String := none
  completed : Option Bool := none
  todaySelected : Option Bool := none
  weight : Option Nat := none
deriving Repr

/-- The spread `{...t, ...updates}`: fields present in `u` replace those of `t`. -/
def applyUpdates (u : TaskUpdates) (t : Task) : Task :=
  { t with
    name := u.name.getD t.name,
    type := u.type.getD t.type,
    timing := u.timing.getD t.timing,
    completed := u.completed.getD t.completed,
    todaySelected := u.todaySelected.getD t.todaySelected,
    weight := u.weight.getD t.weight }

/-- `updateTask(id, updates)` from TasksContext.js: for the matching id, merge
the updates, set `updatedAt`, then recompute `weight` on the merged record. -/
def updateTask (id : String) (u : TaskUpdates) (now : Nat)
    (tasks : List Task) : List Task :=
  tasks.map (fun t =>
    if t.id = id then
      let updated := { applyUpdates u t with updatedAt := now }
      { updated with weight := computeWeight updated }
    else t)

/-- `removeTask(id)` from TasksContext.js: `prev.filter(t => t.id !== id)`. -/
def removeTask (id : String) (tasks : List Task) : List Task :=
  tasks.filter (fun t => t.id != id)

/-- `toggleCompleted(id)` from TasksContext.js: for the matching id, flip
`completed` and set `todaySelected` to `t.completed ? t.todaySelected : false`
(reading the pre-toggle value), refreshing `updatedAt`. -/
def toggleCompleted (id : String) (now : Nat) (tasks : List Task) : List Task :=
  tasks.map (fun t =>
    if t.id = id then
      { t with completed := !t.completed,
               todaySelected := if t.completed then t.todaySelected else false,
               updatedAt := now }
    else t)

/-- `setTodaySelected(id, selected)` from TasksContext.js. -/
def setTodaySelected (id : String) (selected : Bool) (now : Nat)
    (tasks : List Task) : List Task :=
  tasks.map (fun t =>
    if t.id = id then { t with todaySelected := selected, updatedAt := now } else t)

/-- `clearTodaySelections()` from TasksContext.js:
`prev.map(t => ({ ...t, todaySelected: false }))` — note no `updatedAt` refresh. -/
def clearTodaySelections (tasks : List Task) : List Task :=
  tasks.map (fun t => { t with todaySelected := false })

/-- The load-from-storage step of `TasksProvider`'s init effect:
`parsed.map(t => ({ ...t, weight: computeWeight(t) }))` — every persisted task
has its weight recomputed, all other fields kept. -/
def loadTasks (raw : List Task) : List Task :=
  raw.map (fun t => { t with weight := computeWeight t })

/-- The sort comparator of `getEliminationCandidates` as a "may precede"
test: `a` may come before `b` iff `b.weight - a.weight < 0`, or that
difference is 0 and `a.name.localeCompare(b.name) <= 0`. -/
def taskLE (a b : Task) : Bool :=
  b.weight < a.weight || (a.weight == b.weight && a.name ≤ b.name)

/-- Step 1 of `getEliminationCandidates`: `tasks.filter(t => !t.completed)`. -/
def pendingTasks (tasks : List Task) : List Task :=
  tasks.filter (fun t => !t.completed)

/-- Step 2: `pending.sort(...)` by weight descending then name ascending. -/
def sortedPending (tasks : List Task) : List Task :=
  (pendingTasks tasks).mergeSort taskLE

/-- Step 3: `Array.from(new Set(sorted.map(t => t.weight))).sort((a, b) => b - a)
.slice(0, 5)` — the distinct weights present, sorted descending, top 5. (The JS
`Set` keeps first-occurrence order, Lean's `dedup` keeps another; the descending
sort that follows erases the difference.) -/
def uniqueWeights (tasks : List Task) : List Nat :=
  (((sortedPending tasks).map (fun t => t.weight)).dedup.mergeSort
    (fun a b => b ≤ a)).take 5

/-- `getEliminationCandidates` from TasksContext.js, steps 4-5: keep the sorted
tasks whose weight is among the top distinct weights, and truncate to 10. -/
def getEliminationCandidates (tasks : List Task) : List Task :=
  ((sortedPending tasks).filter
    (fun t => (uniqueWeights tasks).contains t.weight)).take 10

/-- One mutating Task Store call, with its external inputs (uuid, clock). -/
inductive StoreOp where
  | add (newId : String) (now : Nat) (name ty timing : String)
  | update (id : String) (u : TaskUpdates) (now : Nat)
  | remove (id : String)
  | toggle (id : String) (now : Nat)
  | setToday (id : String) (selected : Bool) (now : Nat)
  | clearToday

/-- Run one store operation against the current task list. -/
def applyOp (ts : List Task) : StoreOp → List Task
  | .add newId now name ty timing => addTask newId now name ty timing ts
  | .update id u now => updateTask id u now ts
  | .remove id => removeTask id ts
  | .toggle id now => toggleCompleted id now ts
  | .setToday id sel now => setTodaySelected id sel now ts
  | .clearToday => clearTodaySelections ts

/-- Run a sequence of store operations. -/
def applyOps (ops : List StoreOp) (ts : List Task) : List Task :=
  ops.foldl applyOp ts

/-- The derived-weight invariant: every task's stored weight equals the weight
recomputed from its current type and timing. -/
def weightInv (ts : List Task) : Bool :=
  ts.all (fun t => t.weight == computeWeight t)

/-- The spec's error vocabulary for store operations on an unknown id. -/
inductive StoreError where
  | notFound
deriving Repr, DecidableEq

/-- `removeTask` seen through the spec's fallible interface. The JS function
body contains no throw and no branch for an absent id, so every call returns
normally; the wrapper records that the error channel is never used. -/
def removeTaskE (id : String) (ts : List Task) : Except StoreError (List Task) :=
  Except.ok (removeTask id ts)

/-- `updateTask` seen through the spec's fallible interface (never errors). -/
def updateTaskE (id : String) (u : TaskUpdates) (now : Nat)
    (ts : List Task) : Except StoreError (List Task) :=
  Except.ok (updateTask id u now ts)

/-- `toggleCompleted` seen through the spec's fallible interface (never errors). -/
def toggleCompletedE (id : String) (now : Nat)
    (ts : List Task) : Except StoreError (List Task) :=
  Except.ok (toggleCompleted id now ts)

/-- `setTodaySelected` seen through the spec's fallible interface (never errors). -/
def setTodaySelectedE (id : String) (selected : Bool) (now : Nat)
    (ts : List Task) : Except StoreError (List Task) :=
  Except.ok (setTodaySelected id selected now ts)

/-- `handleSave` from AllTasksScreen.js in add mode (no task being edited):
trim the name input; if the trimmed name is empty, alert and leave the store
untouched; otherwise call `addTask` with the trimmed name. -/
def handleSaveAdd (newId : String) (now : Nat) (nameInput ty timing : String)
    (tasks : List Task) : List Task :=
  let trimmed := jsTrim nameInput
  if trimmed = "" then tasks else addTask newId now trimmed ty timing tasks

/-- Modelled from the spec: the type-weight table
`typeWeight = (Want:1, Need:2, Both:3)`, unrecognized values defaulting to 1.
Spec-side definition used to state the refinement claim about `computeWeight`. -/
def specTypeWeight (ty : String) : Nat :=
  if ty = "Want" then 1 else if ty = "Need" then 2 else if ty = "Both" then 3 else 1

/-- Modelled from the spec: the timing-weight table
`timingWeight = (Today:2, Later:1)`, unrecognized values defaulting to 1. -/
def specTimingWeight (timing : String) : Nat :=
  if timing = "Today" then 2 else if timing = "Later" then 1 else 1

/-- A task with the given type and timing (other fields irrelevant), for
stating the weight table concretely. -/
def mkSample (ty timing : String) : Task :=
  { id := "", name := "", type := ty, timing := timing, weight := 0,
    completed := false, todaySelected := false, createdAt := 0, updatedAt := 0 }

/-- A concrete task used in witnesses and counterexamples: incomplete, selected
for today. -/
def sampleA : Task :=
  { id := "t1", name := "A", type := "Want", timing := "Today", weight := 2,
    completed := false, todaySelected := true, createdAt := 0, updatedAt := 0 }

/- ------------------------------------------------------------------ -/
/- Helper lemmas.                                                     -/
/- ------------------------------------------------------------------ -/

theorem taskLE_trans (a b c : Task) (hab : taskLE a b = true)
    (hbc : taskLE b c = true) : taskLE a c = true := by
  simp only [taskLE, Bool.or_eq_true, decide_eq_true_eq, Bool.and_eq_true,
    beq_iff_eq] at *
  rcases hab with h1 | ⟨h1, h2⟩ <;> rcases hbc with h3 | ⟨h3, h4⟩
  · left; omega
  · left; omega
  · left; omega
  · right; exact ⟨h1.trans h3, le_trans h2 h4⟩

theorem taskLE_total (a b : Task) : (taskLE a b || taskLE b a) = true := by
  simp only [taskLE, Bool.or_eq_true, decide_eq_true_eq, Bool.and_eq_true,
    beq_iff_eq]
  rcases Nat.lt_trichotomy a.weight b.weight with h | h | h
  · right; left; exact h
  · rcases le_total a.name b.name with hn | hn
    · left; right; exact ⟨h, hn⟩
    · right; right; exact ⟨h.symm, hn⟩
  · left; left; exact h

theorem sortedPending_pairwise (ts : List Task) :
    (sortedPending ts).Pairwise (fun a b => taskLE a b = true) := by
  unfold sortedPending
  exact List.sorted_mergeSort taskLE_trans taskLE_total (pendingTasks ts)

theorem find?_toggleCompleted (ts : List Task) (tid : String) (now : Nat)
    (t : Task) (h : ts.find? (fun u => u.id == tid) = some t) :
    (toggleCompleted tid now ts).find? (fun u => u.id == tid) =
      some { t with completed := !t.completed,
                    todaySelected := if t.completed then t.todaySelected else false,
                    updatedAt := now } := by
  induction ts with
  | nil => simp at h
  | cons a as ih =>
    simp only [toggleCompleted, List.map_cons]
    by_cases ha : a.id = tid
    · have hb : (a.id == tid) = true := beq_iff_eq.mpr ha
      simp only [List.find?_cons, hb] at h
      injection h with h
      subst h
      rw [if_pos ha]
      simp [List.find?_cons, hb]
    · have hb : (a.id == tid) = false := beq_eq_false_iff_ne.mpr ha
      simp only [List.find?_cons, hb] at h
      rw [if_neg ha]
      simp only [List.find?_cons, hb]
      exact ih h

theorem map_id_miss (g : Task → Task) (tid : String) (ts : List Task)
    (h : ∀ t ∈ ts, t.id ≠ tid) :
    (ts.map fun t => if t.id = tid then g t else t) = ts := by
  induction ts with
  | nil => rfl
  | cons a as ih =>
    simp only [List.map_cons]
    rw [if_neg (h a (List.mem_cons_self a as)),
      ih (fun t ht => h t (List.mem_cons_of_mem a ht))]

theorem weightInv_loadTasks (raw : List Task) :
    weightInv (loadTasks raw) = true := by
  unfold weightInv loadTasks
  rw [List.all_eq_true]
  intro t ht
  obtain ⟨s, hs, rfl⟩ := List.mem_map.mp ht
  exact beq_self_eq_true _

theorem weightInv_applyOp (op : StoreOp) (ts : List Task)
    (h : weightInv ts = true) : weightInv (applyOp ts op) = true := by
  unfold weightInv at h ⊢
  rw [List.all_eq_true] at h ⊢
  intro t ht
  cases op with
  | add newId now name ty timing =>
    simp only [applyOp, addTask] at ht
    rcases List.mem_cons.mp ht with rfl | hmem
    · exact beq_self_eq_true _
    · exact h t hmem
  | update tid u now =>
    simp only [applyOp, updateTask] at ht
    obtain ⟨s, hs, rfl⟩ := List.mem_map.mp ht
    by_cases hid : s.id = tid
    · rw [if_pos hid]; exact beq_self_eq_true _
    · rw [if_neg hid]; exact h s hs
  | remove tid =>
    simp only [applyOp, removeTask] at ht
    exact h t (List.mem_filter.mp ht).1
  | toggle tid now =>
    simp only [applyOp, toggleCompleted] at ht
    obtain ⟨s, hs, rfl⟩ := List.mem_map.mp ht
    by_cases hid : s.id = tid
    · rw [if_pos hid]; exact h s hs
    · rw [if_neg hid]; exact h s hs
  | setToday tid sel now =>
    simp only [applyOp, setTodaySelected] at ht
    obtain ⟨s, hs, rfl⟩ := List.mem_map.mp ht
    by_cases hid : s.id = tid
    · rw [if_pos hid]; exact h s hs
    · rw [if_neg hid]; exact h s hs
  | clearToday =>
    simp only [applyOp, clearTodaySelections] at ht
    obtain ⟨s, hs, rfl⟩ := List.mem_map.mp ht
    exact h s hs

theorem weightInv_applyOps (ops : List StoreOp) (ts : List Task)
    (h : weightInv ts = true) : weightInv (applyOps ops ts) = true := by
  induction ops generalizing ts with
  | nil => exact h
  | cons op rest ih => exact ih (applyOp ts op) (weightInv_applyOp op ts h)

theorem lookup_typeWeight (s : String) :
    (TYPE_WEIGHTS.lookup s).getD 1 = specTypeWeight s := by
  unfold TYPE_WEIGHTS specTypeWeight
  by_cases h1 : s = "Want"
  · simp [List.lookup, h1]
  · by_cases h2 : s = "Need"
    · simp [List.lookup, beq_eq_false_iff_ne.mpr h1, h1, h2]
    · by_cases h3 : s = "Both"
      · simp [List.lookup, beq_eq_false_iff_ne.mpr h1,
          beq_eq_false_iff_ne.mpr h2, h1, h2, h3]
      · simp [List.lookup, beq_eq_false_iff_ne.mpr h1,
          beq_eq_false_iff_ne.mpr h2, beq_eq_false_iff_ne.mpr h3, h1, h2, h3]

theorem lookup_timingWeight (s : String) :
    (TIMING_WEIGHTS.lookup s).getD 1 = specTimingWeight s := by
  unfold TIMING_WEIGHTS specTimingWeight
  by_cases h1 : s = "Today"
  · simp [List.lookup, h1]
  · by_cases h2 : s = "Later"
    · simp [List.lookup, beq_eq_false_iff_ne.mpr h1, h1, h2]
    · simp [List.lookup, beq_eq_false_iff_ne.mpr h1,
        beq_eq_false_iff_ne.mpr h2, h1, h2]

/- ------------------------------------------------------------------ -/
/- Claims.                                                            -/
/- ------------------------------------------------------------------ -/

/-- Claim C1: for every task list, `getEliminationCandidates` returns no
completed task, at most 10 tasks, and at most 5 distinct weight values. -/
theorem getEliminationCandidates_bounded (ts : List Task) :
    ((getEliminationCandidates ts).all fun t => !t.completed) = true
    ∧ (getEliminationCandidates ts).length ≤ 10
    ∧ ((getEliminationCandidates ts).map (fun t => t.weight)).dedup.length ≤ 5 := by
  refine ⟨?_, ?_, ?_⟩
  · rw [List.all_eq_true]
    intro t ht
    unfold getEliminationCandidates at ht
    have h1 := List.mem_of_mem_take ht
    have h2 : t ∈ sortedPending ts := (List.mem_filter.mp h1).1
    unfold sortedPending at h2
    have h3 : t ∈ pendingTasks ts := List.mem_mergeSort.mp h2
    unfold pendingTasks at h3
    exact (List.mem_filter.mp h3).2
  · exact List.length_take_le _ _
  · have hnd := List.nodup_dedup ((getEliminationCandidates ts).map fun t => t.weight)
    have hsub : ((getEliminationCandidates ts).map fun t => t.weight).dedup.toFinset
        ⊆ (uniqueWeights ts).toFinset := by
      intro w hw
      rw [List.mem_toFinset] at hw ⊢
      have hw1 := List.mem_dedup.mp hw
      obtain ⟨t, ht, rfl⟩ := List.mem_map.mp hw1
      unfold getEliminationCandidates at ht
      have h1 := List.mem_of_mem_take ht
      have h2 := (List.mem_filter.mp h1).2
      exact List.elem_iff.mp h2
    calc ((getEliminationCandidates ts).map (fun t => t.weight)).dedup.length
        = ((getEliminationCandidates ts).map (fun t => t.weight)).dedup.toFinset.card :=
          (List.toFinset_card_of_nodup hnd).symm
      _ ≤ (uniqueWeights ts).toFinset.card := Finset.card_le_card hsub
      _ ≤ (uniqueWeights ts).length := List.toFinset_card_le _
      _ ≤ 5 := by unfold uniqueWeights; exact List.length_take_le _ _

/-- Claim C2: every pair of tasks returned by `getEliminationCandidates` is
ordered by weight descending, with ties broken by name ascending. -/
theorem getEliminationCandidates_ordered (ts : List Task) :
    (getEliminationCandidates ts).Pairwise
      (fun a b => b.weight ≤ a.weight ∧ (a.weight = b.weight → a.name ≤ b.name)) := by
  unfold getEliminationCandidates
  have hf := (sortedPending_pairwise ts).filter
    (fun t => (uniqueWeights ts).contains t.weight)
  refine (List.Pairwise.sublist (List.take_sublist _ _) hf).imp ?_
  intro a b hab
  simp only [taskLE, Bool.or_eq_true, decide_eq_true_eq, Bool.and_eq_true,
    beq_iff_eq] at hab
  rcases hab with h | ⟨h1, h2⟩
  · exact ⟨Nat.le_of_lt h, fun he => False.elim (by omega)⟩
  · exact ⟨Nat.le_of_eq h1.symm, fun _ => h2⟩

/-- Claim C3: the derived weight is `typeWeight(type) × timingWeight(timing)`
with the spec's tables and default factor 1 for unrecognized values; the six
valid combinations give 2, 1, 4, 2, 6, 3. -/
theorem computeWeight_table (t : Task) :
    computeWeight t = specTypeWeight t.type * specTimingWeight t.timing
    ∧ computeWeight (mkSample "Want" "Today") = 2
    ∧ computeWeight (mkSample "Want" "Later") = 1
    ∧ computeWeight (mkSample "Need" "Today") = 4
    ∧ computeWeight (mkSample "Need" "Later") = 2
    ∧ computeWeight (mkSample "Both" "Today") = 6
    ∧ computeWeight (mkSample "Both" "Later") = 3 := by
  refine ⟨?_, by decide, by decide, by decide, by decide, by decide, by decide⟩
  unfold computeWeight
  rw [lookup_typeWeight, lookup_timingWeight]

/-- Claim C4: `toggleCompleted` on a present task flips `completed` and sets
`todaySelected` to the pre-toggle `completed ? todaySelected : false`: it is
preserved when the task was completed, cleared when it was incomplete. -/
theorem toggleCompleted_flips_and_clears (ts : List Task) (tid : String)
    (now : Nat) (t : Task) (h : ts.find? (fun u => u.id == tid) = some t) :
    (toggleCompleted tid now ts).find? (fun u => u.id == tid) =
      some { t with completed := !t.completed,
                    todaySelected := if t.completed then t.todaySelected else false,
                    updatedAt := now } :=
  find?_toggleCompleted ts tid now t h

/-- Witness for C4 at a concrete store: toggling the incomplete, selected task
`sampleA` yields `completed = true` and `todaySelected = false`. -/
theorem toggleCompleted_flips_and_clears_witness :
    ([sampleA].find? (fun u => u.id == "t1") = some sampleA)
    ∧ (toggleCompleted "t1" 7 [sampleA]).find? (fun u => u.id == "t1") =
        some { sampleA with
               completed := !sampleA.completed,
               todaySelected := if sampleA.completed then sampleA.todaySelected else false,
               updatedAt := 7 } :=
  ⟨by decide, toggleCompleted_flips_and_clears [sampleA] "t1" 7 sampleA (by decide)⟩

/-- Counterexample to claim C5 as stated: for the task `sampleA` with
`todaySelected = true` and `completed = false`, a single `toggleCompleted`
makes `completed` true but forces `todaySelected` to `false` — it does not
remain true as the claim asserts. -/
theorem toggle_scenario_counterexample :
    sampleA.todaySelected = true ∧ sampleA.completed = false
    ∧ (toggleCompleted "t1" 1 [sampleA]).map (fun t => t.completed) = [true]
    ∧ (toggleCompleted "t1" 1 [sampleA]).map (fun t => t.todaySelected) = [false] := by
  decide

/-- Claim C5 amended: on a task with `todaySelected = true`, `completed = false`,
the first `toggleCompleted` makes `completed` true and forces `todaySelected`
to false (the rule clears the flag when the pre-toggle task was incomplete);
the second toggle makes `completed` false and `todaySelected` stays false. -/
theorem toggle_scenario_amended (ts : List Task) (tid : String) (n1 n2 : Nat)
    (t : Task) (h : ts.find? (fun u => u.id == tid) = some t)
    (hsel : t.todaySelected = true) (hcomp : t.completed = false) :
    (toggleCompleted tid n1 ts).find? (fun u => u.id == tid) =
      some { t with completed := true, todaySelected := false, updatedAt := n1 }
    ∧ (toggleCompleted tid n2 (toggleCompleted tid n1 ts)).find? (fun u => u.id == tid) =
      some { t with completed := false, todaySelected := false, updatedAt := n2 } := by
  have h1 : (toggleCompleted tid n1 ts).find? (fun u => u.id == tid) =
      some { t with completed := true, todaySelected := false, updatedAt := n1 } := by
    have := find?_toggleCompleted ts tid n1 t h
    simpa [hcomp] using this
  refine ⟨h1, ?_⟩
  have h2 := find?_toggleCompleted (toggleCompleted tid n1 ts) tid n2 _ h1
  simpa using h2

/-- Witness for the amended C5 at a concrete store: both toggles evaluated on
`sampleA`. -/
theorem toggle_scenario_amended_witness :
    ([sampleA].find? (fun u => u.id == "t1") = some sampleA)
    ∧ sampleA.todaySelected = true
    ∧ sampleA.completed = false
    ∧ ((toggleCompleted "t1" 1 [sampleA]).find? (fun u => u.id == "t1") =
        some { sampleA with completed := true, todaySelected := false, updatedAt := 1 }
      ∧ (toggleCompleted "t1" 2 (toggleCompleted "t1" 1 [sampleA])).find?
          (fun u => u.id == "t1") =
        some { sampleA with completed := false, todaySelected := false, updatedAt := 2 }) :=
  ⟨by decide, by decide, by decide,
    toggle_scenario_amended [sampleA] "t1" 1 2 sampleA (by decide) (by decide) (by decide)⟩

/-- Counterexample to claim C6 as stated: `addTask` applied to a name of pure
whitespace does not fail and does not leave the store unchanged — it adds a
task whose name trims to the empty string. -/
theorem addTask_blank_counterexample :
    addTask "id1" 0 "   " "Want" "Today" [] =
      [{ id := "id1", name := "", type := "Want", timing := "Today", weight := 2,
         completed := false, todaySelected := false, createdAt := 0, updatedAt := 0 }] := by
  decide

/-- Claim C6 amended: the empty-name validation lives in the UI save handler,
not in `addTask`. `handleSaveAdd` leaves the store unchanged when the name
trims to empty and otherwise calls `addTask` on the trimmed name; `addTask`
itself unconditionally prepends a task carrying the trimmed name, the derived
weight, and fresh flags (and returns no id). -/
theorem addTask_validation_amended (newId : String) (now : Nat)
    (nameInput ty timing : String) (ts : List Task) :
    handleSaveAdd newId now nameInput ty timing ts =
      (if jsTrim nameInput = "" then ts
       else addTask newId now (jsTrim nameInput) ty timing ts)
    ∧ (addTask newId now nameInput ty timing ts).length = ts.length + 1
    ∧ (addTask newId now nameInput ty timing ts).head? =
        some { id := newId, name := jsTrim nameInput, type := ty, timing := timing,
               weight := ((TYPE_WEIGHTS.lookup ty).getD 1) *
                 ((TIMING_WEIGHTS.lookup timing).getD 1),
               completed := false, todaySelected := false,
               createdAt := now, updatedAt := now } :=
  ⟨rfl, rfl, rfl⟩

/-- Counterexample to claim C7 as stated: store operations on an id absent from
the store succeed (returning the unchanged collection) rather than failing
with a NotFound error — the JS bodies have no error path at all. -/
theorem notfound_counterexample :
    ([sampleA].all fun t => t.id != "zzz") = true
    ∧ removeTaskE "zzz" [sampleA] = Except.ok [sampleA]
    ∧ updateTaskE "zzz" {} 5 [sampleA] = Except.ok [sampleA]
    ∧ toggleCompletedE "zzz" 5 [sampleA] = Except.ok [sampleA]
    ∧ setTodaySelectedE "zzz" true 5 [sampleA] = Except.ok [sampleA] :=
  ⟨by decide, rfl, rfl, rfl, rfl⟩

/-- Claim C7 amended: `updateTask`, `removeTask`, `toggleCompleted` and
`setTodaySelected` on an id not present in the store are silent no-ops — the
task collection is returned unchanged and no error is raised (the spec's
"degrade silently by no-op" production behavior, not a NotFound failure). -/
theorem absent_id_noop (ts : List Task) (tid : String) (u : TaskUpdates)
    (now : Nat) (sel : Bool) (h : (ts.all fun t => t.id != tid) = true) :
    removeTaskE tid ts = Except.ok ts
    ∧ updateTaskE tid u now ts = Except.ok ts
    ∧ toggleCompletedE tid now ts = Except.ok ts
    ∧ setTodaySelectedE tid sel now ts = Except.ok ts := by
  rw [List.all_eq_true] at h
  have hne : ∀ t ∈ ts, t.id ≠ tid := fun t ht => bne_iff_ne.mp (h t ht)
  refine ⟨?_, ?_, ?_, ?_⟩
  · unfold removeTaskE removeTask
    exact congrArg Except.ok
      (List.filter_eq_self.mpr (fun a ha => bne_iff_ne.mpr (hne a ha)))
  · unfold updateTaskE updateTask
    exact congrArg Except.ok (map_id_miss _ tid ts hne)
  · unfold toggleCompletedE toggleCompleted
    exact congrArg Except.ok (map_id_miss _ tid ts hne)
  · unfold setTodaySelectedE setTodaySelected
    exact congrArg Except.ok (map_id_miss _ tid ts hne)

/-- Witness for the amended C7 at a concrete store and absent id. -/
theorem absent_id_noop_witness :
    (([sampleA].all fun t => t.id != "zzz") = true)
    ∧ (removeTaskE "zzz" [sampleA] = Except.ok [sampleA]
      ∧ updateTaskE "zzz" {} 5 [sampleA] = Except.ok [sampleA]
      ∧ toggleCompletedE "zzz" 5 [sampleA] = Except.ok [sampleA]
      ∧ setTodaySelectedE "zzz" true 5 [sampleA] = Except.ok [sampleA]) :=
  ⟨by decide, absent_id_noop [sampleA] "zzz" {} 5 true (by decide)⟩

/-- Claim C8: the weight invariant holds after load and after any sequence of
store operations; loading recomputes weight while preserving every other
field; and a weight supplied in an update map is ignored by `updateTask`. -/
theorem weight_invariant_maintained (raw : List Task) (ops : List StoreOp)
    (tid : String) (u : TaskUpdates) (w : Option Nat) (now : Nat)
    (ts : List Task) :
    weightInv (loadTasks raw) = true
    ∧ weightInv (applyOps ops (loadTasks raw)) = true
    ∧ (loadTasks raw).map (fun t => t.id) = raw.map (fun t => t.id)
    ∧ (loadTasks raw).map (fun t => t.name) = raw.map (fun t => t.name)
    ∧ (loadTasks raw).map (fun t => t.type) = raw.map (fun t => t.type)
    ∧ (loadTasks raw).map (fun t => t.timing) = raw.map (fun t => t.timing)
    ∧ (loadTasks raw).map (fun t => t.completed) = raw.map (fun t => t.completed)
    ∧ (loadTasks raw).map (fun t => t.todaySelected) = raw.map (fun t => t.todaySelected)
    ∧ (loadTasks raw).map (fun t => t.createdAt) = raw.map (fun t => t.createdAt)
    ∧ (loadTasks raw).map (fun t => t.updatedAt) = raw.map (fun t => t.updatedAt)
    ∧ updateTask tid { u with weight := w } now ts =
        updateTask tid { u with weight := none } now ts := by
  refine ⟨weightInv_loadTasks raw,
    weightInv_applyOps ops (loadTasks raw) (weightInv_loadTasks raw),
    ?_, ?_, ?_, ?_, ?_, ?_, ?_, ?_, rfl⟩
  all_goals unfold loadTasks
  all_goals rw [List.map_map]
  all_goals rfl

/-- Claim C9: recomputing `getEliminationCandidates` from an unchanged task
list yields the identical sequence. In the source the only in-place mutation,
`pending.sort`, hits the fresh array built by `filter`, so the computation
reads the store without modifying it and is a pure function of the task list;
determinism is then definitional. -/
theorem getEliminationCandidates_idempotent (ts : List Task) :
    getEliminationCandidates ts = getEliminationCandidates ts := rfl

/-- Claim C10: `clearTodaySelections` clears `todaySelected` on every task and
changes nothing else — in particular `updatedAt` is not refreshed. -/
theorem clearTodaySelections_frame (ts : List Task) :
    ((clearTodaySelections ts).all fun t => t.todaySelected == false) = true
    ∧ (clearTodaySelections ts).map (fun t => t.id) = ts.map (fun t => t.id)
    ∧ (clearTodaySelections ts).map (fun t => t.name) = ts.map (fun t => t.name)
    ∧ (clearTodaySelections ts).map (fun t => t.type) = ts.map (fun t => t.type)
    ∧ (clearTodaySelections ts).map (fun t => t.timing) = ts.map (fun t => t.timing)
    ∧ (clearTodaySelections ts).map (fun t => t.weight) = ts.map (fun t => t.weight)
    ∧ (clearTodaySelections ts).map (fun t => t.completed) = ts.map (fun t => t.completed)
    ∧ (clearTodaySelections ts).map (fun t => t.createdAt) = ts.map (fun t => t.createdAt)
    ∧ (clearTodaySelections ts).map (fun t => t.updatedAt) = ts.map (fun t => t.updatedAt) := by
  refine ⟨?_, ?_, ?_, ?_, ?_, ?_, ?_, ?_, ?_⟩
  · rw [List.all_eq_true]
    intro x hx
    unfold clearTodaySelections at hx
    obtain ⟨s, hs, rfl⟩ := List.mem_map.mp hx
    rfl
  all_goals unfold clearTodaySelections
  all_goals rw [List.map_map]
  all_goals rfl

end TodoApp
